import Mathlib

/-!
Shallow embedding of the pyfirmware actuator/CAN driver core
(firmware/can.py, firmware/actuators.py, firmware/shutdown.py) and proofs of
the specified properties.  Machine integers are modelled as Nat with explicit
masking; byte strings as List Nat; socket reads as a stream of read results;
fallible Python code as Except; real-valued (Python float) arithmetic as ℝ.
-/

namespace PyFirmware

/-- Multiplex codes from the Mux dataclass in firmware/actuators.py. -/
def Mux.PING : Nat := 0x00

/-- Mux.CONTROL from firmware/actuators.py. -/
def Mux.CONTROL : Nat := 0x01

/-- Mux.FEEDBACK from firmware/actuators.py. -/
def Mux.FEEDBACK : Nat := 0x02

/-- Mux.MOTOR_ENABLE from firmware/actuators.py. -/
def Mux.MOTOR_ENABLE : Nat := 0x03

/-- Mux.FAULT_RESPONSE from firmware/actuators.py. -/
def Mux.FAULT_RESPONSE : Nat := 0x15

/-- Python attribute lookup on the Mux class of firmware/actuators.py: the class
defines exactly the five fields PING, CONTROL, FEEDBACK, MOTOR_ENABLE and
FAULT_RESPONSE; looking up any other attribute raises AttributeError, modelled
as none. -/
def Mux.attr : String → Option Nat
  | "PING" => some Mux.PING
  | "CONTROL" => some Mux.CONTROL
  | "FEEDBACK" => some Mux.FEEDBACK
  | "MOTOR_ENABLE" => some Mux.MOTOR_ENABLE
  | "FAULT_RESPONSE" => some Mux.FAULT_RESPONSE
  | _ => none

/-- CANInterface.EFF: the extended-frame flag. -/
def CANInterface.EFF : Nat := 0x80000000

/-- CANInterface.HOST_ID. -/
def CANInterface.HOST_ID : Nat := 0xFD

/-- Little-endian four-byte encoding of a 32-bit integer (struct.pack of format
I, little endian), as used by FRAME_FMT. -/
def u32le (x : Nat) : List Nat :=
  [x % 2 ^ 8, x / 2 ^ 8 % 2 ^ 8, x / 2 ^ 16 % 2 ^ 8, x / 2 ^ 24 % 2 ^ 8]

/-- Read a big-endian u16 from two bytes (struct.unpack of format H, big
endian). -/
def readU16be (hi lo : Nat) : Nat := hi * 2 ^ 8 + lo

/-- Big-endian two-byte encoding of a 16-bit integer (struct.pack of format H,
big endian). -/
def u16be (x : Nat) : List Nat := [x / 2 ^ 8 % 2 ^ 8, x % 2 ^ 8]

/-- struct.pack of format 8s applied to payload[:8]: truncate to at most eight
bytes, then pad with zero bytes to exactly eight. -/
def pad8 (p : List Nat) : List Nat :=
  p.take 8 ++ List.replicate (8 - (p.take 8).length) 0

/-- An all-zero default payload (bytes of eight zeros). -/
def zeros8 : List Nat := List.replicate 8 0

/-- CANInterface._build_can_frame: assemble the 29-bit extended identifier from
the destination actuator id (low byte), the host id 0xFD (second byte) and the
5-bit mux (byte 3), set the extended-frame flag, and pack the 16-byte frame as
identifier (little-endian u32), length byte 8, three zero bytes, 8 payload
bytes. -/
def CANInterface.build_can_frame (actuator_can_id mux : Nat) (payload : List Nat) : List Nat :=
  let can_id := ((actuator_can_id &&& 0xFF) ||| (CANInterface.HOST_ID <<< 8) |||
      ((mux &&& 0x1F) <<< 24)) ||| CANInterface.EFF
  u32le can_id ++ [8 &&& 0xFF, 0, 0, 0] ++ pad8 payload

/-- The structured result of CANInterface._parse_can_frame. -/
structure ParsedFrame where
  host_id : Nat
  actuator_can_id : Nat
  fault_flags : Nat
  mode_status : Nat
  mux : Nat
  payload : List Nat
  deriving DecidableEq, Repr

/-- CANInterface._parse_can_frame: raises ValueError (modelled as none) unless
the buffer is exactly 16 bytes; otherwise unpacks the little-endian 32-bit
identifier from the first four bytes and extracts host id, actuator id, fault
flags, mode status and mux by shift and mask; the payload is the last eight
bytes. -/
def CANInterface.parse_can_frame (frame : List Nat) : Option ParsedFrame :=
  if frame.length = 16 then
    let can_id := frame[0]! + frame[1]! * 2 ^ 8 + frame[2]! * 2 ^ 16 + frame[3]! * 2 ^ 24
    some
      { host_id := (can_id >>> 0) &&& 0xFF
        actuator_can_id := (can_id >>> 8) &&& 0xFF
        fault_flags := (can_id >>> 16) &&& 0x3F
        mode_status := (can_id >>> 22) &&& 0x03
        mux := (can_id >>> 24) &&& 0x1F
        payload := frame.drop 8 }
  else none

/-- A fault-table entry (FaultCode dataclass in firmware/actuators.py). -/
structure FaultCode where
  code : Nat
  critical : Bool
  description : String
  deriving DecidableEq, Repr

/-- A raised CriticalFaultError; the Python exception message interpolates the
actuator id and the description, modelled here as the pair itself. -/
structure CriticalFaultError where
  actuator_can_id : Nat
  description : String
  deriving DecidableEq, Repr

/-- CANInterface.MUX_0x15_FAULT_CODES. -/
def CANInterface.MUX_0x15_FAULT_CODES : List FaultCode :=
  [⟨0x01, true, "Motor Over-temperature (>145°C)"⟩,
   ⟨0x02, true, "Driver Fault (DRV status)"⟩,
   ⟨0x04, false, "Undervoltage (VBUS < 12V)"⟩,
   ⟨0x08, false, "Overvoltage (VBUS > 60V)"⟩,
   ⟨0x80, false, "Encoder Uncalibrated"⟩,
   ⟨0x4000, true, "Stall/I²t Overload"⟩]

/-- CANInterface.MUX_0x15_WARNING_CODES. -/
def CANInterface.MUX_0x15_WARNING_CODES : List FaultCode :=
  [⟨0x01, false, "Motor overtemperature warning (default 135°C)"⟩]

/-- CANInterface.CAN_ID_FAULT_CODES. -/
def CANInterface.CAN_ID_FAULT_CODES : List FaultCode :=
  [⟨0x20, false, "Uncalibrated"⟩,
   ⟨0x10, false, "Gridlock overload fault"⟩,
   ⟨0x08, false, "Magnetic coding fault"⟩,
   ⟨0x04, true, "Overtemperature"⟩,
   ⟨0x02, true, "Overcurrent"⟩,
   ⟨0x01, false, "Undervoltage"⟩]

/-- CANInterface._check_for_faults: walk the table; when fault_flags equals an
code of an entry (equality, not bitmask intersection), a critical entry raises
CriticalFaultError (ending the walk), a non-critical entry prints a warning and
the walk continues.  Result: the warnings printed in order, and the raised
error if any. -/
def CANInterface.check_for_faults :
    List FaultCode → Nat → Nat → List String × Option CriticalFaultError
  | [], _, _ => ([], none)
  | fc :: rest, fault_flags, actuator_can_id =>
    if fault_flags = fc.code then
      if fc.critical then ([], some ⟨actuator_can_id, fc.description⟩)
      else
        let r := CANInterface.check_for_faults rest fault_flags actuator_can_id
        (fc.description :: r.1, r.2)
    else CANInterface.check_for_faults rest fault_flags actuator_can_id

/-- Read a little-endian u32 from the first four bytes of a buffer
(struct.unpack of format I, little endian). -/
def readU32le (b : List Nat) : Nat :=
  b[0]! + b[1]! * 2 ^ 8 + b[2]! * 2 ^ 16 + b[3]! * 2 ^ 24

/-- CANInterface._process_fault_response: unpack the 8 payload bytes as two
little-endian u32 words (fault bitmap, warning bitmap), then classify the fault
word against MUX_0x15_FAULT_CODES and the warning word against
MUX_0x15_WARNING_CODES. -/
def CANInterface.process_fault_response (payload : List Nat) (actuator_can_id : Nat) :
    List String × Option CriticalFaultError :=
  let fault_value := readU32le (payload.take 4)
  let warning_value := readU32le (payload.drop 4)
  let r1 := CANInterface.check_for_faults CANInterface.MUX_0x15_FAULT_CODES fault_value actuator_can_id
  match r1.2 with
  | some e => (r1.1, some e)
  | none =>
    let r2 := CANInterface.check_for_faults CANInterface.MUX_0x15_WARNING_CODES warning_value actuator_can_id
    (r1.1 ++ r2.1, r2.2)

/-- One socket read result: none models a recv timeout or any other exception
raised inside the try block of _receive_can_frame; some bytes is the received
buffer.  An exhausted stream also reads as a timeout. -/
abbrev RecvEvent := Option (List Nat)

/-- A raised Python exception of the driver. -/
inductive PyError where
  | criticalFault (e : CriticalFaultError)
  | attributeError (cls att : String)
  | valueError (msg : String)
  deriving DecidableEq, Repr

/-- CANInterface._receive_can_frame: read one frame from the socket; on a recv
error/timeout or a malformed (non-16-byte) buffer return none.  Otherwise
classify the in-band fault flags (which may raise).  If the mux differs from
the expected one, print a warning; when it is the extended-fault mux, classify
the payload through _process_fault_response (which may raise); in either case
recurse to read another frame.  When the mux matches, return the parsed frame.
The unconsumed remainder of the stream is returned alongside. -/
def CANInterface.receive_can_frame :
    List RecvEvent → Nat → Except PyError (Option ParsedFrame × List RecvEvent)
  | [], _ => .ok (none, [])
  | none :: rest, _ => .ok (none, rest)
  | some bytes :: rest, mux =>
    match CANInterface.parse_can_frame bytes with
    | none => .ok (none, rest)
    | some pf =>
      match (CANInterface.check_for_faults CANInterface.CAN_ID_FAULT_CODES
          pf.fault_flags pf.actuator_can_id).2 with
      | some e => .error (.criticalFault e)
      | none =>
        if pf.mux ≠ mux then
          if pf.mux = Mux.FAULT_RESPONSE then
            match (CANInterface.process_fault_response pf.payload pf.actuator_can_id).2 with
            | some e => .error (.criticalFault e)
            | none => CANInterface.receive_can_frame rest mux
          else CANInterface.receive_can_frame rest mux
        else .ok (some pf, rest)

/-- Per-bus state of a CANInterface: the bus index (key of self.sockets and
self.actuators), the discovered actuator id list self.actuators[canbus], and
the pending stream of socket read results for the socket of that bus.  A send is a
write to the socket: it does not change this state, so the model returns send
traces where a claim needs them. -/
structure BusState where
  canbus : Nat
  actuators : List Nat
  stream : List RecvEvent
  deriving DecidableEq, Repr

/-- Inner loop of CANInterface.disable_motors over one bus: for every
discovered actuator id, evaluate Mux.MOTOR_DISABLE (an attribute lookup on the
Mux class, which raises AttributeError because the class does not define it),
build the disable frame, send it, and sleep 10 ms (time.sleep has no model
effect).  Returns the trace of (bus, frame) sends. -/
def CANInterface.disable_motors_bus (canbus : Nat) :
    List Nat → Except PyError (List (Nat × List Nat))
  | [] => .ok []
  | actuator_id :: rest =>
    match Mux.attr "MOTOR_DISABLE" with
    | none => .error (.attributeError "Mux" "MOTOR_DISABLE")
    | some m =>
      match CANInterface.disable_motors_bus canbus rest with
      | .error e => .error e
      | .ok tail => .ok ((canbus, CANInterface.build_can_frame actuator_id m zeros8) :: tail)

/-- CANInterface.disable_motors: for every bus and every discovered actuator on
it, send one disable frame paced by a 10 ms sleep.  No response is read. -/
def CANInterface.disable_motors : List BusState → Except PyError (List (Nat × List Nat))
  | [] => .ok []
  | bus :: rest =>
    match CANInterface.disable_motors_bus bus.canbus bus.actuators with
    | .error e => .error e
    | .ok head =>
      match CANInterface.disable_motors rest with
      | .error e => .error e
      | .ok tail => .ok (head ++ tail)

/-- The record built by CANInterface._parse_feedback_response: the 8 payload
bytes unpacked as four big-endian u16 values. -/
structure FeedbackResult where
  host_id : Nat
  actuator_can_id : Nat
  fault_flags : Nat
  angle_raw : Nat
  angular_velocity_raw : Nat
  torque_raw : Nat
  temperature_raw : Nat
  deriving DecidableEq, Repr

/-- CANInterface._parse_feedback_response. -/
def CANInterface.parse_feedback_response (r : ParsedFrame) : FeedbackResult :=
  { host_id := r.host_id
    actuator_can_id := r.actuator_can_id
    fault_flags := r.fault_flags
    angle_raw := readU16be r.payload[0]! r.payload[1]!
    angular_velocity_raw := readU16be r.payload[2]! r.payload[3]!
    torque_raw := readU16be r.payload[4]! r.payload[5]!
    temperature_raw := readU16be r.payload[6]! r.payload[7]! }

/-- The results dictionary of CANInterface.get_actuator_feedback. -/
abbrev FeedbackMap := Nat → Option FeedbackResult

/-- Python dict assignment results[k] = v. -/
def FeedbackMap.update (m : FeedbackMap) (k : Nat) (v : FeedbackResult) : FeedbackMap :=
  fun x => if x = k then some v else m x

/-- Receive half of one tranche of CANInterface.get_actuator_feedback: for each
bus that has an actuator at this tranche index, receive one feedback-mux frame
from its socket; on a timeout print a warning and continue; otherwise parse the
feedback and store it in the results dictionary keyed by the actuator id
carried in the response frame itself (printing a warning first when that id
differs from the polled one, and overwriting the local actuator_id variable
with the id of the response). -/
def CANInterface.gaf_receive (tranche : Nat) :
    List BusState → FeedbackMap → Except PyError (List BusState × FeedbackMap)
  | [], results => .ok ([], results)
  | bus :: rest, results =>
    if tranche < bus.actuators.length then
      match CANInterface.receive_can_frame bus.stream Mux.FEEDBACK with
      | .error e => .error e
      | .ok (none, s2) =>
        match CANInterface.gaf_receive tranche rest results with
        | .error e => .error e
        | .ok t => .ok ({ bus with stream := s2 } :: t.1, t.2)
      | .ok (some pf, s2) =>
        let result := CANInterface.parse_feedback_response pf
        match CANInterface.gaf_receive tranche rest
            (results.update result.actuator_can_id result) with
        | .error e => .error e
        | .ok t => .ok ({ bus with stream := s2 } :: t.1, t.2)
    else
      match CANInterface.gaf_receive tranche rest results with
      | .error e => .error e
      | .ok t => .ok (bus :: t.1, t.2)

/-- The tranche loop of CANInterface.get_actuator_feedback.  The send half of
each tranche writes one feedback request per eligible bus to its socket and
does not change the model state; the receive half is gaf_receive. -/
def CANInterface.gaf_tranches :
    List Nat → List BusState → FeedbackMap → Except PyError FeedbackMap
  | [], _, results => .ok results
  | t :: ts, buses, results =>
    match CANInterface.gaf_receive t buses results with
    | .error e => .error e
    | .ok r => CANInterface.gaf_tranches ts r.1 r.2

/-- CANInterface.get_actuator_feedback: send one request per bus per tranche and
collect the responses.  The Python max() raises ValueError when the actuators
dict is empty. -/
def CANInterface.get_actuator_feedback (buses : List BusState) : Except PyError FeedbackMap :=
  match buses with
  | [] => .error (.valueError "max() arg is an empty sequence")
  | _ =>
    let max_tranches := (buses.map (fun b => b.actuators.length)).foldl max 0
    CANInterface.gaf_tranches (List.range max_tranches) buses (fun _ => none)

/-- State of the ShutdownManager singleton (firmware/shutdown.py): the
registered cleanup callbacks in registration order (identified here by Nat
tokens), the callbacks still pending inside a running _execute_shutdown, the
two guard flags, the invocation log, and the log of callbacks whose exception
was caught. -/
structure ShutdownState where
  registered : List Nat
  pending : List Nat
  shutdown_in_progress : Bool
  shutdown_complete : Bool
  invoked : List Nat
  caught : List Nat
  deriving DecidableEq, Repr

/-- A fresh ShutdownManager on which register_cleanup appended the given
callbacks in order. -/
def ShutdownManager.init (ids : List Nat) : ShutdownState :=
  { registered := ids
    pending := []
    shutdown_in_progress := false
    shutdown_complete := false
    invoked := []
    caught := [] }

/-- An entry into the shutdown machinery.  invoke is one call of
_execute_shutdown: from atexit on normal exit, from the SIGINT/SIGTERM handler,
or re-entrantly while a shutdown is already running; it takes the mutex, checks
the two flags and either returns (already complete or already in progress) or
marks the shutdown in progress and schedules the callbacks in reverse
registration order.  step runs the next scheduled callback inside its
try/except (recording a caught exception when the callback raises) or, when
none are left, marks the shutdown complete. -/
inductive SMEvent where
  | invoke
  | step
  deriving DecidableEq, Repr

/-- One transition of the shutdown machine; raises names the callbacks that
throw inside their body (their exception is caught and logged by
_execute_shutdown). -/
def ShutdownManager.smStep (raises : Nat → Bool) (s : ShutdownState) : SMEvent → ShutdownState
  | .invoke =>
    if s.shutdown_complete || s.shutdown_in_progress then s
    else { s with shutdown_in_progress := true, pending := s.registered.reverse }
  | .step =>
    match s.pending with
    | [] =>
      if s.shutdown_in_progress && !s.shutdown_complete then { s with shutdown_complete := true }
      else s
    | c :: rest =>
      { s with pending := rest
               invoked := s.invoked ++ [c]
               caught := if raises c then s.caught ++ [c] else s.caught }

/-- Run the shutdown machine over a sequence of entries. -/
def ShutdownManager.run (raises : Nat → Bool) (ids : List Nat) (events : List SMEvent) : ShutdownState :=
  events.foldl (ShutdownManager.smStep raises) (ShutdownManager.init ids)

/-- The loop body of MotorDriver.get_joint_angles_and_velocities, generic over
the raw feedback representation and the converted data representation (the
source converts through ActuatorConfig.can_to_physical_data; the bookkeeping
is independent of the value representation).  For each configured actuator id
in order: when this exchange returned fresh feedback, convert it, put it in the
answer and store a copy in last_known_feedback; otherwise fall back to the
last-known entry when one exists; otherwise fall back to dummy zeros.  Returns
the answer entries in order and the updated last_known_feedback. -/
def MotorDriver.gjav_loop {Raw Data : Type} (conv : Nat → Raw → Data) (dummy : Nat → Data) :
    List Nat → (Nat → Option Raw) → (Nat → Option Data) →
    List (Nat × Data) × (Nat → Option Data)
  | [], _, lk => ([], lk)
  | id :: rest, fb, lk =>
    match fb id with
    | some r =>
      let d := conv id r
      let t := MotorDriver.gjav_loop conv dummy rest fb (fun x => if x = id then some d else lk x)
      ((id, d) :: t.1, t.2)
    | none =>
      match lk id with
      | some d =>
        let t := MotorDriver.gjav_loop conv dummy rest fb lk
        ((id, d) :: t.1, t.2)
      | none =>
        let t := MotorDriver.gjav_loop conv dummy rest fb lk
        ((id, dummy id) :: t.1, t.2)

/-- MotorDriver.__init__ seeds last_known_feedback with dummy_data for every
configured actuator id. -/
def MotorDriver.lk_init {Data : Type} (ids : List Nat) (dummy : Nat → Data) :
    Nat → Option Data :=
  fun x => if x ∈ ids then some (dummy x) else none

/-- The last_known_feedback state after a history of calls to
get_joint_angles_and_velocities (earlier list entries are earlier calls; each
history entry is the fresh-exchange result of that call per actuator). -/
def MotorDriver.run_ticks {Raw Data : Type} (conv : Nat → Raw → Data) (dummy : Nat → Data)
    (ids : List Nat) (hist : List (Nat → Option Raw)) (lk : Nat → Option Data) :
    Nat → Option Data :=
  hist.foldl (fun l fb => (MotorDriver.gjav_loop conv dummy ids fb l).2) lk

/-- The most recent successful raw read for an actuator across a history of
feedback exchanges (later list entries are more recent). -/
def lastSuccess {Raw : Type} (hist : List (Nat → Option Raw)) (a : Nat) : Option Raw :=
  hist.foldl (fun acc fb => match fb a with | some r => some r | none => acc) none

/-- RobstrideActuatorType (firmware/actuators.py). -/
inductive RobstrideActuatorType where
  | Robstride00
  | Robstride01
  | Robstride02
  | Robstride03
  | Robstride04
  deriving DecidableEq, Repr

/-- The per-family CAN range endpoints returned by actuator_ranges. -/
structure ActuatorRanges where
  angle_can_min : ℝ
  angle_can_max : ℝ
  velocity_can_min : ℝ
  velocity_can_max : ℝ
  torque_can_min : ℝ
  torque_can_max : ℝ
  kp_can_min : ℝ
  kp_can_max : ℝ
  kd_can_min : ℝ
  kd_can_max : ℝ

/-- actuator_ranges (firmware/actuators.py). -/
noncomputable def actuator_ranges : RobstrideActuatorType → ActuatorRanges
  | .Robstride00 =>
    ⟨-4 * Real.pi, 4 * Real.pi, -33, 33, -14, 14, 0, 500, 0, 5⟩
  | .Robstride01 =>
    ⟨-4 * Real.pi, 4 * Real.pi, -44, 44, -17, 17, 0, 500, 0, 5⟩
  | .Robstride02 =>
    ⟨-4 * Real.pi, 4 * Real.pi, -44, 44, -17, 17, 0, 500, 0, 5⟩
  | .Robstride03 =>
    ⟨-4 * Real.pi, 4 * Real.pi, -20, 20, -60, 60, 0, 5000, 0, 100⟩
  | .Robstride04 =>
    ⟨-4 * Real.pi, 4 * Real.pi, -15, 15, -120, 120, 0, 5000, 0, 100⟩

/-- ActuatorConfig (firmware/actuators.py); Python float values are modelled
over ℝ. -/
structure ActuatorConfig where
  can_id : Nat
  full_name : String
  actuator_type : RobstrideActuatorType
  joint_bias : ℝ
  kp : ℝ
  kd : ℝ
  angle_can_min : ℝ
  angle_can_max : ℝ
  velocity_can_min : ℝ
  velocity_can_max : ℝ
  torque_can_min : ℝ
  torque_can_max : ℝ
  kp_can_min : ℝ
  kp_can_max : ℝ
  kd_can_min : ℝ
  kd_can_max : ℝ

/-- ActuatorConfig.can_to_physical_angle. -/
noncomputable def ActuatorConfig.can_to_physical_angle (c : ActuatorConfig) (can_value : ℝ) : ℝ :=
  c.angle_can_min + (can_value - 0) / (65535 - 0) * (c.angle_can_max - c.angle_can_min)

/-- ActuatorConfig.physical_to_can_angle. -/
noncomputable def ActuatorConfig.physical_to_can_angle (c : ActuatorConfig) (physical_value : ℝ) : ℝ :=
  0 + (physical_value - c.angle_can_min) / (c.angle_can_max - c.angle_can_min) * (65535 - 0)

/-- ActuatorConfig.can_to_physical_velocity. -/
noncomputable def ActuatorConfig.can_to_physical_velocity (c : ActuatorConfig) (can_value : ℝ) : ℝ :=
  c.velocity_can_min + (can_value - 0) / (65535 - 0) * (c.velocity_can_max - c.velocity_can_min)

/-- ActuatorConfig.physical_to_can_velocity. -/
noncomputable def ActuatorConfig.physical_to_can_velocity (c : ActuatorConfig) (physical_value : ℝ) : ℝ :=
  0 + (physical_value - c.velocity_can_min) / (c.velocity_can_max - c.velocity_can_min) * (65535 - 0)

/-- ActuatorConfig.can_to_physical_torque. -/
noncomputable def ActuatorConfig.can_to_physical_torque (c : ActuatorConfig) (can_value : ℝ) : ℝ :=
  c.torque_can_min + (can_value - 0) / (65535 - 0) * (c.torque_can_max - c.torque_can_min)

/-- ActuatorConfig.physical_to_can_torque. -/
noncomputable def ActuatorConfig.physical_to_can_torque (c : ActuatorConfig) (physical_value : ℝ) : ℝ :=
  0 + (physical_value - c.torque_can_min) / (c.torque_can_max - c.torque_can_min) * (65535 - 0)

/-- ActuatorConfig.can_to_physical_kp. -/
noncomputable def ActuatorConfig.can_to_physical_kp (c : ActuatorConfig) (can_value : ℝ) : ℝ :=
  c.kp_can_min + (can_value - 0) / (65535 - 0) * (c.kp_can_max - c.kp_can_min)

/-- ActuatorConfig.physical_to_can_kp. -/
noncomputable def ActuatorConfig.physical_to_can_kp (c : ActuatorConfig) (physical_value : ℝ) : ℝ :=
  0 + (physical_value - c.kp_can_min) / (c.kp_can_max - c.kp_can_min) * (65535 - 0)

/-- ActuatorConfig.can_to_physical_kd. -/
noncomputable def ActuatorConfig.can_to_physical_kd (c : ActuatorConfig) (can_value : ℝ) : ℝ :=
  c.kd_can_min + (can_value - 0) / (65535 - 0) * (c.kd_can_max - c.kd_can_min)

/-- ActuatorConfig.physical_to_can_kd. -/
noncomputable def ActuatorConfig.physical_to_can_kd (c : ActuatorConfig) (physical_value : ℝ) : ℝ :=
  0 + (physical_value - c.kd_can_min) / (c.kd_can_max - c.kd_can_min) * (65535 - 0)

/-- ActuatorConfig.can_to_physical_temperature. -/
noncomputable def ActuatorConfig.can_to_physical_temperature (_c : ActuatorConfig) (can_value : ℝ) : ℝ :=
  can_value / 10

/-- ActuatorConfig.raw_kp. -/
noncomputable def ActuatorConfig.raw_kp (c : ActuatorConfig) : ℝ :=
  c.physical_to_can_kp c.kp

/-- ActuatorConfig.raw_kd. -/
noncomputable def ActuatorConfig.raw_kd (c : ActuatorConfig) : ℝ :=
  c.physical_to_can_kd c.kd

/-- math.radians. -/
noncomputable def radians (x : ℝ) : ℝ := x * Real.pi / 180

/-- The ActuatorConfig(...) construction pattern of RobotConfig.actuators:
explicit fields plus the unpacked actuator_ranges of the family. -/
noncomputable def mkActuatorConfig (can_id : Nat) (full_name : String)
    (t : RobstrideActuatorType) (kp kd joint_bias : ℝ) : ActuatorConfig :=
  let r := actuator_ranges t
  { can_id := can_id
    full_name := full_name
    actuator_type := t
    joint_bias := joint_bias
    kp := kp
    kd := kd
    angle_can_min := r.angle_can_min
    angle_can_max := r.angle_can_max
    velocity_can_min := r.velocity_can_min
    velocity_can_max := r.velocity_can_max
    torque_can_min := r.torque_can_min
    torque_can_max := r.torque_can_max
    kp_can_min := r.kp_can_min
    kp_can_max := r.kp_can_max
    kd_can_min := r.kd_can_min
    kd_can_max := r.kd_can_max }

/-- RobotConfig.actuators (firmware/actuators.py): the compiled-in table, as a
map from CAN id to descriptor (none for unknown ids). -/
noncomputable def RobotConfig.actuators : Nat → Option ActuatorConfig
  | 11 => some (mkActuatorConfig 11 "dof_left_shoulder_pitch_03" .Robstride03 100 8.284 0)
  | 12 => some (mkActuatorConfig 12 "dof_left_shoulder_roll_03" .Robstride03 100 8.257 (radians 10))
  | 13 => some (mkActuatorConfig 13 "dof_left_shoulder_yaw_02" .Robstride02 100 2.945 0)
  | 14 => some (mkActuatorConfig 14 "dof_left_elbow_02" .Robstride02 80 2.266 (radians (-90)))
  | 15 => some (mkActuatorConfig 15 "dof_left_wrist_00" .Robstride00 20 0.295 0)
  | 16 => some (mkActuatorConfig 16 "dof_left_wrist_gripper_05" .Robstride00 4 0.06 (radians 0))
  | 21 => some (mkActuatorConfig 21 "dof_right_shoulder_pitch_03" .Robstride03 100 8.284 0)
  | 22 => some (mkActuatorConfig 22 "dof_right_shoulder_roll_03" .Robstride03 100 8.257 (radians (-10)))
  | 23 => some (mkActuatorConfig 23 "dof_right_shoulder_yaw_02" .Robstride02 100 2.945 0)
  | 24 => some (mkActuatorConfig 24 "dof_right_elbow_02" .Robstride02 100 2.266 (radians 90))
  | 25 => some (mkActuatorConfig 25 "dof_right_wrist_00" .Robstride00 20 0.295 0)
  | 26 => some (mkActuatorConfig 26 "dof_right_wrist_gripper_05" .Robstride00 4 0.06 (radians 0))
  | 31 => some (mkActuatorConfig 31 "dof_left_hip_pitch_04" .Robstride04 150 24.722 (radians 20))
  | 32 => some (mkActuatorConfig 32 "dof_left_hip_roll_03" .Robstride03 200 26.387 0)
  | 33 => some (mkActuatorConfig 33 "dof_left_hip_yaw_03" .Robstride03 100 3.419 0)
  | 34 => some (mkActuatorConfig 34 "dof_left_knee_04" .Robstride04 150 8.654 (radians 50))
  | 35 => some (mkActuatorConfig 35 "dof_left_ankle_02" .Robstride02 40 0.99 (radians (-30)))
  | 41 => some (mkActuatorConfig 41 "dof_right_hip_pitch_04" .Robstride04 150 24.722 (radians (-20)))
  | 42 => some (mkActuatorConfig 42 "dof_right_hip_roll_03" .Robstride03 200 26.387 0)
  | 43 => some (mkActuatorConfig 43 "dof_right_hip_yaw_03" .Robstride03 100 3.419 0)
  | 44 => some (mkActuatorConfig 44 "dof_right_knee_04" .Robstride04 150 8.654 (radians (-50)))
  | 45 => some (mkActuatorConfig 45 "dof_right_ankle_02" .Robstride02 40 0.99 (radians 30))
  | _ => none

/-- Python int() applied to a float: truncation toward zero. -/
noncomputable def pyInt (x : ℝ) : ℤ := if 0 ≤ x then ⌊x⌋ else ⌈x⌉

/-- CANInterface._build_pd_command_frame: assert the scaling is in [0, 1],
convert the zero feed-forward torque, the target angle, zero velocity and the
gains scaled by the factor to raw integers with int(), pack the identifier from
the actuator id (byte 0), the raw torque (bytes 1 and 2) and the control mux,
and pack the payload as four big-endian u16 values.  A failed assert and a
struct.pack range error (format H needs [0, 65535], format I needs a 32-bit
value) are modelled as none. -/
noncomputable def CANInterface.build_pd_command_frame
    (cfg : ActuatorConfig) (actuator_can_id : Nat) (angle scaling : ℝ) :
    Option (List Nat) :=
  if 0 ≤ scaling ∧ scaling ≤ 1 then
    let raw_torque := pyInt (cfg.physical_to_can_torque 0)
    let raw_angle := pyInt (cfg.physical_to_can_angle angle)
    let raw_ang_vel := pyInt (cfg.physical_to_can_velocity 0)
    let raw_kp := pyInt (cfg.raw_kp * scaling)
    let raw_kd := pyInt (cfg.raw_kd * scaling)
    if 0 ≤ raw_angle ∧ raw_angle ≤ 65535 ∧ 0 ≤ raw_ang_vel ∧ raw_ang_vel ≤ 65535 ∧
        0 ≤ raw_kp ∧ raw_kp ≤ 65535 ∧ 0 ≤ raw_kd ∧ raw_kd ≤ 65535 ∧ 0 ≤ raw_torque then
      let can_id := ((actuator_can_id &&& 0xFF) ||| (raw_torque.toNat <<< 8) |||
          ((Mux.CONTROL &&& 0x1F) <<< 24)) ||| CANInterface.EFF
      if can_id < 2 ^ 32 then
        some (u32le can_id ++ [8 &&& 0xFF, 0, 0, 0] ++
          (u16be raw_angle.toNat ++ u16be raw_ang_vel.toNat ++
           u16be raw_kp.toNat ++ u16be raw_kd.toNat))
      else none
    else none
  else none

/-- The descriptor RobotConfig.actuators[11] (left shoulder pitch,
Robstride03). -/
noncomputable def cfg11 : ActuatorConfig :=
  mkActuatorConfig 11 "dof_left_shoulder_pitch_03" .Robstride03 100 8.284 0

/-- The 16 bytes of the PD command frame for actuator 11, target angle 0,
scaling 1/2. -/
def pd_frame11_bytes : List Nat :=
  [11, 255, 127, 129, 8, 0, 0, 0, 127, 255, 127, 255, 2, 143, 10, 154]

/-- The gain scale visited at step i of the homing ramp in
MotorDriver.enable_and_home_motors. -/
noncomputable def MotorDriver.rampScale (max_scaling : ℝ) (i : Nat) : ℝ :=
  Real.exp (Real.log 0.001 + (Real.log 1 - Real.log 0.001) * i / 29) * max_scaling

/-- The sequence of gain scales driven by the for-loop of
MotorDriver.enable_and_home_motors (for i in range(30)). -/
noncomputable def MotorDriver.rampScales (max_scaling : ℝ) : List ℝ :=
  (List.range 30).map (MotorDriver.rampScale max_scaling)

/-- A concrete inbound feedback frame as an actuator with id 12 would emit it:
source byte 0xFD, actuator id 12 in byte 1, no fault or mode bits, feedback
mux 0x02 with the extended-frame flag in the high identifier byte, length 8,
zero payload. -/
def f12bytes : List Nat := [0xFD, 12, 0, 0x82, 8, 0, 0, 0] ++ zeros8

/-- The ParsedFrame for f12bytes. -/
def pf12 : ParsedFrame :=
  { host_id := 0xFD, actuator_can_id := 12, fault_flags := 0, mode_status := 0,
    mux := Mux.FEEDBACK, payload := zeros8 }

/-- A sample callback-raise pattern: callback 1 throws, others do not. -/
def raisesOne : Nat → Bool := fun c => c == 1

/-- The flag/ordering invariant of the shutdown machine. -/
def ShutdownManager.Inv (ids : List Nat) (s : ShutdownState) : Prop :=
  s.registered = ids ∧
  (s.shutdown_in_progress = false → s.pending = [] ∧ s.invoked = [] ∧ s.shutdown_complete = false) ∧
  (s.shutdown_in_progress = true → s.invoked ++ s.pending = ids.reverse) ∧
  (s.shutdown_complete = true → s.pending = [] ∧ s.shutdown_in_progress = true)

/-- Two shutdown states that agree on everything except the caught-exception
log. -/
def ShutdownManager.SameCore (s t : ShutdownState) : Prop :=
  s.registered = t.registered ∧ s.pending = t.pending ∧
  s.shutdown_in_progress = t.shutdown_in_progress ∧
  s.shutdown_complete = t.shutdown_complete ∧ s.invoked = t.invoked

theorem and_mask_255 (x : Nat) : x &&& 0xFF = x % 256 := by
  have h := Nat.and_pow_two_sub_one_eq_mod x 8
  norm_num at h
  exact h

theorem and_mask_63 (x : Nat) : x &&& 0x3F = x % 64 := by
  have h := Nat.and_pow_two_sub_one_eq_mod x 6
  norm_num at h
  exact h

theorem and_mask_31 (x : Nat) : x &&& 0x1F = x % 32 := by
  have h := Nat.and_pow_two_sub_one_eq_mod x 5
  norm_num at h
  exact h

theorem and_mask_3 (x : Nat) : x &&& 0x03 = x % 4 := by
  have h := Nat.and_pow_two_sub_one_eq_mod x 2
  norm_num at h
  exact h

theorem lor_add_of_lt {i b : Nat} (h : b < 2 ^ i) (a : Nat) :
    (2 ^ i * a) ||| b = 2 ^ i * a + b :=
  (Nat.mul_add_lt_is_or h a).symm

/-- The 32-bit identifier assembled by _build_can_frame, as a plain sum. -/
theorem build_can_id_eq (a m : Nat) (ha : a < 2 ^ 8) (hm : m < 2 ^ 5) :
    ((a &&& 0xFF) ||| (CANInterface.HOST_ID <<< 8) ||| ((m &&& 0x1F) <<< 24)) |||
        CANInterface.EFF = 2147483648 + 16777216 * m + 64768 + a := by
  have h1 : a &&& 0xFF = a := by rw [and_mask_255]; omega
  have h2 : m &&& 0x1F = m := by rw [and_mask_31]; omega
  rw [h1, h2]
  have e1 : a ||| CANInterface.HOST_ID <<< 8 = 2 ^ 8 * 253 + a := by
    rw [Nat.lor_comm]
    show (253 : Nat) <<< 8 ||| a = 2 ^ 8 * 253 + a
    rw [Nat.shiftLeft_eq, Nat.mul_comm]
    exact lor_add_of_lt ha 253
  have e2 : 2 ^ 8 * 253 + a ||| m <<< 24 = 2 ^ 24 * m + (2 ^ 8 * 253 + a) := by
    rw [Nat.lor_comm, Nat.shiftLeft_eq, Nat.mul_comm]
    exact lor_add_of_lt (by norm_num; omega) m
  have e3 : 2 ^ 24 * m + (2 ^ 8 * 253 + a) ||| CANInterface.EFF =
      2 ^ 31 * 1 + (2 ^ 24 * m + (2 ^ 8 * 253 + a)) := by
    rw [Nat.lor_comm]
    show (2147483648 : Nat) ||| _ = _
    have : (2147483648 : Nat) = 2 ^ 31 * 1 := by norm_num
    rw [this]
    exact lor_add_of_lt (by norm_num; omega) 1
  rw [e1, e2, e3]
  norm_num
  omega

/-- struct.pack of format 8s is the identity on 8-byte payloads. -/
theorem pad8_of_length_eq (p : List Nat) (hp : p.length = 8) : pad8 p = p := by
  unfold pad8
  rw [List.take_of_length_le (by omega)]
  simp [hp]

/-- C5 helper: parsing a frame built by _build_can_frame recovers the mux and
payload, puts the destination actuator id in the host_id slot and the host id
0xFD in the actuator_can_id slot, and reads zero fault flags and mode
status. -/
theorem parse_build_roundtrip (a m : Nat) (p : List Nat)
    (ha : a < 2 ^ 8) (hm : m < 2 ^ 5) (hp : p.length = 8) :
    CANInterface.parse_can_frame (CANInterface.build_can_frame a m p) =
      some { host_id := a, actuator_can_id := CANInterface.HOST_ID, fault_flags := 0,
             mode_status := 0, mux := m, payload := p } := by
  unfold CANInterface.build_can_frame
  rw [build_can_id_eq a m ha hm, pad8_of_length_eq p hp]
  set x : Nat := 2147483648 + 16777216 * m + 64768 + a with hx
  have hfr : u32le x ++ [8 &&& 0xFF, 0, 0, 0] ++ p =
      x % 2 ^ 8 :: (x / 2 ^ 8 % 2 ^ 8) :: (x / 2 ^ 16 % 2 ^ 8) :: (x / 2 ^ 24 % 2 ^ 8) ::
        8 :: 0 :: 0 :: 0 :: p := by
    simp [u32le]
    decide
  rw [hfr]
  unfold CANInterface.parse_can_frame
  rw [if_pos (by simp [hp])]
  have hb0 : x % 2 ^ 8 = a := by omega
  have hb1 : x / 2 ^ 8 % 2 ^ 8 = 253 := by omega
  have hb2 : x / 2 ^ 16 % 2 ^ 8 = 0 := by omega
  have hb3 : x / 2 ^ 24 % 2 ^ 8 = 128 + m := by omega
  simp only [List.getElem!_cons_zero, List.getElem!_cons_succ, hb0, hb1, hb2, hb3]
  have hid : a + 253 * 2 ^ 8 + 0 * 2 ^ 16 + (128 + m) * 2 ^ 24 = x := by omega
  rw [hid]
  have f0 : (x >>> 0) &&& 0xFF = a := by
    rw [Nat.shiftRight_eq_div_pow, and_mask_255]; omega
  have f1 : (x >>> 8) &&& 0xFF = 253 := by
    rw [Nat.shiftRight_eq_div_pow, and_mask_255]; omega
  have f2 : (x >>> 16) &&& 0x3F = 0 := by
    rw [Nat.shiftRight_eq_div_pow, and_mask_63]; omega
  have f3 : (x >>> 22) &&& 0x03 = 0 := by
    rw [Nat.shiftRight_eq_div_pow, and_mask_3]; omega
  have f4 : (x >>> 24) &&& 0x1F = m := by
    rw [Nat.shiftRight_eq_div_pow, and_mask_31]; omega
  rw [f0, f1, f2, f3, f4]
  simp [CANInterface.HOST_ID, List.drop]

/-- C5 (corrected, counterexample): for the firmware-built frame with actuator
id 11, feedback mux and zero payload, unpacking does not yield the actuator id
back in the actuator_can_id field (it reads 0xFD = 253), and re-packing the
unpacked structure does not reproduce the frame. -/
theorem c5_pack_unpack_not_inverse :
    (CANInterface.parse_can_frame (CANInterface.build_can_frame 11 Mux.FEEDBACK zeros8)).map
        (fun pf => (pf.actuator_can_id,
          CANInterface.build_can_frame pf.actuator_can_id pf.mux pf.payload)) =
      some (253, CANInterface.build_can_frame 253 Mux.FEEDBACK zeros8) ∧
    (253 : Nat) ≠ 11 ∧
    CANInterface.build_can_frame 253 Mux.FEEDBACK zeros8 ≠
      CANInterface.build_can_frame 11 Mux.FEEDBACK zeros8 := by
  refine ⟨?_, by decide, ?_⟩ <;> decide

/-- C5 (amended): the codec round-trips up to the swap of the two 8-bit id
slots: parsing a built frame recovers the mux and payload exactly, returns the
built destination id in the host_id field and the fixed host id 0xFD in the
actuator_can_id field (with zero fault flags and mode status), and re-packing
with the id taken from the host_id field reproduces the frame byte for
byte. -/
theorem c5_codec_round_trip (a m : Nat) (p : List Nat)
    (ha : a < 2 ^ 8) (hm : m < 2 ^ 5) (hp : p.length = 8) :
    CANInterface.parse_can_frame (CANInterface.build_can_frame a m p) =
      some { host_id := a, actuator_can_id := CANInterface.HOST_ID, fault_flags := 0,
             mode_status := 0, mux := m, payload := p } ∧
    (∀ pf, CANInterface.parse_can_frame (CANInterface.build_can_frame a m p) = some pf →
      CANInterface.build_can_frame pf.host_id pf.mux pf.payload =
        CANInterface.build_can_frame a m p) := by
  refine ⟨parse_build_roundtrip a m p ha hm hp, ?_⟩
  intro pf hpf
  rw [parse_build_roundtrip a m p ha hm hp] at hpf
  cases hpf
  rfl

/-- C5 witness: the round-trip theorem evaluated at actuator id 11, feedback
mux and the zero payload. -/
theorem c5_codec_round_trip_witness :
    CANInterface.parse_can_frame (CANInterface.build_can_frame 11 Mux.FEEDBACK zeros8) =
      some { host_id := 11, actuator_can_id := CANInterface.HOST_ID, fault_flags := 0,
             mode_status := 0, mux := Mux.FEEDBACK, payload := zeros8 } :=
  (c5_codec_round_trip 11 Mux.FEEDBACK zeros8 (by decide) (by decide) (by decide)).1

/-- C3: the receive discipline of _receive_can_frame on an arbitrary finite
stream: a timeout or malformed read at the front returns absent; a frame whose
mux equals the expected one is returned; a clean extended-fault frame is
classified and reading continues on the rest of the stream; any other
unexpected mux warns and reading continues; an exhausted stream (timeout)
returns absent. -/
theorem c3_receive_discipline (mux : Nat) (rest : List RecvEvent) (bs : List Nat)
    (pf : ParsedFrame) :
    CANInterface.receive_can_frame [] mux = .ok (none, []) ∧
    CANInterface.receive_can_frame (none :: rest) mux = .ok (none, rest) ∧
    (CANInterface.parse_can_frame bs = none →
      CANInterface.receive_can_frame (some bs :: rest) mux = .ok (none, rest)) ∧
    (CANInterface.parse_can_frame bs = some pf →
      (CANInterface.check_for_faults CANInterface.CAN_ID_FAULT_CODES
          pf.fault_flags pf.actuator_can_id).2 = none →
      ((pf.mux = mux →
         CANInterface.receive_can_frame (some bs :: rest) mux = .ok (some pf, rest)) ∧
       (pf.mux ≠ mux → pf.mux = Mux.FAULT_RESPONSE →
         (CANInterface.process_fault_response pf.payload pf.actuator_can_id).2 = none →
         CANInterface.receive_can_frame (some bs :: rest) mux =
           CANInterface.receive_can_frame rest mux) ∧
       (pf.mux ≠ mux → pf.mux ≠ Mux.FAULT_RESPONSE →
         CANInterface.receive_can_frame (some bs :: rest) mux =
           CANInterface.receive_can_frame rest mux))) := by
  refine ⟨rfl, rfl, ?_, ?_⟩
  · intro h
    simp [CANInterface.receive_can_frame, h]
  · intro hpf hflt
    refine ⟨?_, ?_, ?_⟩
    · intro hmx
      simp [CANInterface.receive_can_frame, hpf, hflt, hmx]
    · intro hne hfr hproc
      have hne2 : Mux.FAULT_RESPONSE ≠ mux := by rw [← hfr]; exact hne
      simp [CANInterface.receive_can_frame, hpf, hflt, hfr, hproc, hne2]
    · intro hne hnfr
      simp [CANInterface.receive_can_frame, hpf, hflt, hne, hnfr]

/-- C3 witness: the discipline evaluated on a one-frame stream holding a clean
feedback response from actuator 12, expecting the feedback mux. -/
theorem c3_receive_discipline_witness :
    CANInterface.receive_can_frame [some f12bytes] Mux.FEEDBACK = .ok (some pf12, []) :=
  ((c3_receive_discipline Mux.FEEDBACK [] f12bytes pf12).2.2.2 (by decide) (by decide)).1
    (by decide)

/-- Step equation of _check_for_faults: matching critical entry raises. -/
theorem check_step_crit (fc0 : FaultCode) (rest : List FaultCode) (v id : Nat)
    (hv : v = fc0.code) (hc : fc0.critical = true) :
    CANInterface.check_for_faults (fc0 :: rest) v id = ([], some ⟨id, fc0.description⟩) := by
  simp only [CANInterface.check_for_faults]
  rw [if_pos hv, hc]
  simp

/-- Step equation of _check_for_faults: matching non-critical entry warns and
continues. -/
theorem check_step_warn (fc0 : FaultCode) (rest : List FaultCode) (v id : Nat)
    (hv : v = fc0.code) (hc : fc0.critical = false) :
    CANInterface.check_for_faults (fc0 :: rest) v id =
      (fc0.description :: (CANInterface.check_for_faults rest v id).1,
       (CANInterface.check_for_faults rest v id).2) := by
  simp only [CANInterface.check_for_faults]
  rw [if_pos hv, hc]
  simp

/-- Step equation of _check_for_faults: a non-matching entry is skipped. -/
theorem check_step_skip (fc0 : FaultCode) (rest : List FaultCode) (v id : Nat)
    (hv : v ≠ fc0.code) :
    CANInterface.check_for_faults (fc0 :: rest) v id =
      CANInterface.check_for_faults rest v id := by
  simp only [CANInterface.check_for_faults]
  rw [if_neg hv]

/-- C4: fault classification matches by equality.  Over any fault table whose
codes are pairwise distinct (as all three tables of the source are) and any
flag value: classification raises iff the value equals the code of a critical
entry, and then the raised CriticalFaultError carries the actuator id and that
description of that entry with no warning printed; it prints exactly that one
warning and continues iff the value equals the code of a non-critical entry;
and it prints nothing and raises nothing when no code equals the value. -/
theorem c4_fault_equality_matching (table : List FaultCode) (v id : Nat)
    (hnd : (table.map FaultCode.code).Nodup) :
    ((CANInterface.check_for_faults table v id).2.isSome ↔
      ∃ fc ∈ table, fc.code = v ∧ fc.critical = true) ∧
    (∀ fc ∈ table, fc.code = v → fc.critical = true →
      CANInterface.check_for_faults table v id = ([], some ⟨id, fc.description⟩)) ∧
    (∀ fc ∈ table, fc.code = v → fc.critical = false →
      CANInterface.check_for_faults table v id = ([fc.description], none)) ∧
    ((∀ fc ∈ table, fc.code ≠ v) →
      CANInterface.check_for_faults table v id = ([], none)) := by
  induction table with
  | nil =>
    refine ⟨by simp [CANInterface.check_for_faults], by simp, by simp, ?_⟩
    intro
    simp [CANInterface.check_for_faults]
  | cons fc0 rest ih =>
    rw [List.map_cons, List.nodup_cons] at hnd
    obtain ⟨hno, hndr⟩ := hnd
    obtain ⟨ih1, ih2, ih3, ih4⟩ := ih hndr
    by_cases hv : v = fc0.code
    · have hnomatch : ∀ fc ∈ rest, fc.code ≠ v := by
        intro fc hfc h
        apply hno
        rw [← hv, ← h]
        exact List.mem_map_of_mem FaultCode.code hfc
      cases hcrit : fc0.critical with
      | true =>
        have hres := check_step_crit fc0 rest v id hv hcrit
        refine ⟨?_, ?_, ?_, ?_⟩
        · rw [hres]
          simp only [Option.isSome_some, true_iff]
          exact ⟨fc0, List.mem_cons_self fc0 rest, hv.symm, hcrit⟩
        · intro fc hfc hfcv _
          rcases List.mem_cons.mp hfc with h | h
          · rw [h, hres]
          · exact absurd hfcv (hnomatch fc h)
        · intro fc hfc hfcv hfcc
          rcases List.mem_cons.mp hfc with h | h
          · rw [h] at hfcc
            rw [hcrit] at hfcc
            cases hfcc
          · exact absurd hfcv (hnomatch fc h)
        · intro hall
          exact absurd hv.symm (hall fc0 (List.mem_cons_self fc0 rest))
      | false =>
        have hrest : CANInterface.check_for_faults rest v id = ([], none) := ih4 hnomatch
        have hres : CANInterface.check_for_faults (fc0 :: rest) v id =
            ([fc0.description], none) := by
          rw [check_step_warn fc0 rest v id hv hcrit, hrest]
        refine ⟨?_, ?_, ?_, ?_⟩
        · rw [hres]
          simp only [Option.isSome_none, Bool.false_eq_true, false_iff]
          rintro ⟨fc, hfc, hfcv, hfcc⟩
          rcases List.mem_cons.mp hfc with h | h
          · rw [h, hcrit] at hfcc
            cases hfcc
          · exact hnomatch fc h hfcv
        · intro fc hfc hfcv hfcc
          rcases List.mem_cons.mp hfc with h | h
          · rw [h] at hfcc
            rw [hcrit] at hfcc
            cases hfcc
          · exact absurd hfcv (hnomatch fc h)
        · intro fc hfc hfcv _
          rcases List.mem_cons.mp hfc with h | h
          · rw [h, hres]
          · exact absurd hfcv (hnomatch fc h)
        · intro hall
          exact absurd hv.symm (hall fc0 (List.mem_cons_self fc0 rest))
    · have hstep := check_step_skip fc0 rest v id hv
      refine ⟨?_, ?_, ?_, ?_⟩
      · rw [hstep, ih1]
        constructor
        · rintro ⟨fc, hfc, hfcv, hfcc⟩
          exact ⟨fc, List.mem_cons_of_mem fc0 hfc, hfcv, hfcc⟩
        · rintro ⟨fc, hfc, hfcv, hfcc⟩
          rcases List.mem_cons.mp hfc with h | h
          · exact absurd (h ▸ hfcv).symm hv
          · exact ⟨fc, h, hfcv, hfcc⟩
      · intro fc hfc hfcv hfcc
        rcases List.mem_cons.mp hfc with h | h
        · exact absurd (h ▸ hfcv).symm hv
        · rw [hstep]
          exact ih2 fc h hfcv hfcc
      · intro fc hfc hfcv hfcc
        rcases List.mem_cons.mp hfc with h | h
        · exact absurd (h ▸ hfcv).symm hv
        · rw [hstep]
          exact ih3 fc h hfcv hfcc
      · intro hall
        rw [hstep]
        exact ih4 fun fc hfc => hall fc (List.mem_cons_of_mem fc0 hfc)

/-- C4 witness: the extended-fault table evaluated at the critical stall code
0x4000 for actuator 11. -/
theorem c4_fault_equality_matching_witness :
    CANInterface.check_for_faults CANInterface.MUX_0x15_FAULT_CODES 0x4000 11 =
      ([], some ⟨11, "Stall/I²t Overload"⟩) :=
  (c4_fault_equality_matching CANInterface.MUX_0x15_FAULT_CODES 0x4000 11
      (by decide)).2.1
    ⟨0x4000, true, "Stall/I²t Overload"⟩ (by decide) rfl rfl

/-- The shutdown invariant holds initially. -/
theorem init_inv (ids : List Nat) : ShutdownManager.Inv ids (ShutdownManager.init ids) := by
  refine ⟨rfl, fun _ => ⟨rfl, rfl, rfl⟩, ?_, ?_⟩ <;> intro h <;>
    simp [ShutdownManager.init] at h

/-- One transition preserves the shutdown invariant. -/
theorem smStep_inv (raises : Nat → Bool) (ids : List Nat) (s : ShutdownState)
    (h : ShutdownManager.Inv ids s) (e : SMEvent) :
    ShutdownManager.Inv ids (ShutdownManager.smStep raises s e) := by
  obtain ⟨reg, pend, prog, compl, inv, ca⟩ := s
  obtain ⟨h1, h2, h3, h4⟩ := h
  dsimp [ShutdownManager.Inv] at h1 h2 h3 h4
  cases e with
  | invoke =>
    cases compl with
    | true =>
      have hstep : ShutdownManager.smStep raises ⟨reg, pend, prog, true, inv, ca⟩ .invoke =
          ⟨reg, pend, prog, true, inv, ca⟩ := by
        simp [ShutdownManager.smStep]
      rw [hstep]
      exact ⟨h1, h2, h3, h4⟩
    | false =>
      cases prog with
      | true =>
        have hstep : ShutdownManager.smStep raises ⟨reg, pend, true, false, inv, ca⟩ .invoke =
            ⟨reg, pend, true, false, inv, ca⟩ := by
          simp [ShutdownManager.smStep]
        rw [hstep]
        exact ⟨h1, h2, h3, h4⟩
      | false =>
        have hstep : ShutdownManager.smStep raises ⟨reg, pend, false, false, inv, ca⟩ .invoke =
            ⟨reg, reg.reverse, true, false, inv, ca⟩ := by
          simp [ShutdownManager.smStep]
        rw [hstep]
        obtain ⟨-, hinv, -⟩ := h2 rfl
        dsimp [ShutdownManager.Inv]
        refine ⟨h1, ?_, ?_, ?_⟩
        · intro hcontra
          simp at hcontra
        · intro _
          rw [hinv, h1]
          simp
        · intro hcontra
          simp at hcontra
  | step =>
    cases pend with
    | nil =>
      cases prog with
      | false =>
        have hstep : ShutdownManager.smStep raises ⟨reg, [], false, compl, inv, ca⟩ .step =
            ⟨reg, [], false, compl, inv, ca⟩ := by
          simp [ShutdownManager.smStep]
        rw [hstep]
        exact ⟨h1, h2, h3, h4⟩
      | true =>
        cases compl with
        | true =>
          have hstep : ShutdownManager.smStep raises ⟨reg, [], true, true, inv, ca⟩ .step =
              ⟨reg, [], true, true, inv, ca⟩ := by
            simp [ShutdownManager.smStep]
          rw [hstep]
          exact ⟨h1, h2, h3, h4⟩
        | false =>
          have hstep : ShutdownManager.smStep raises ⟨reg, [], true, false, inv, ca⟩ .step =
              ⟨reg, [], true, true, inv, ca⟩ := by
            simp [ShutdownManager.smStep]
          rw [hstep]
          dsimp [ShutdownManager.Inv]
          refine ⟨h1, ?_, fun _ => h3 rfl, fun _ => ⟨rfl, rfl⟩⟩
          intro hcontra
          simp at hcontra
    | cons c rest =>
      have hstep : ShutdownManager.smStep raises ⟨reg, c :: rest, prog, compl, inv, ca⟩ .step =
          ⟨reg, rest, prog, compl, inv ++ [c], if raises c then ca ++ [c] else ca⟩ := by
        simp [ShutdownManager.smStep]
      rw [hstep]
      dsimp [ShutdownManager.Inv]
      refine ⟨h1, ?_, ?_, ?_⟩
      · intro hpr
        obtain ⟨hpend, -, -⟩ := h2 hpr
        cases hpend
      · intro hpr
        have h5 := h3 hpr
        rw [List.append_assoc]
        simpa using h5
      · intro hc
        obtain ⟨hpend, -⟩ := h4 hc
        cases hpend

/-- The invariant holds along any run. -/
theorem foldl_inv (raises : Nat → Bool) (ids : List Nat) :
    ∀ (events : List SMEvent) (s : ShutdownState), ShutdownManager.Inv ids s →
      ShutdownManager.Inv ids (events.foldl (ShutdownManager.smStep raises) s)
  | [], _, h => h
  | e :: es, s, h =>
    foldl_inv raises ids es _ (smStep_inv raises ids s h e)

/-- One transition is insensitive to which callbacks raise, except in the
caught-exception log. -/
theorem smStep_samecore (r1 r2 : Nat → Bool) (s t : ShutdownState)
    (h : ShutdownManager.SameCore s t) (e : SMEvent) :
    ShutdownManager.SameCore (ShutdownManager.smStep r1 s e) (ShutdownManager.smStep r2 t e) := by
  obtain ⟨h1, h2, h3, h4, h5⟩ := h
  cases s with
  | mk reg pend prog compl inv ca =>
    cases t with
    | mk reg2 pend2 prog2 compl2 inv2 ca2 =>
      dsimp at h1 h2 h3 h4 h5
      subst h1
      subst h2
      subst h3
      subst h4
      subst h5
      cases e with
      | invoke =>
        by_cases hg : (compl || prog) = true
        · simp only [ShutdownManager.smStep, if_pos hg]
          exact ⟨rfl, rfl, rfl, rfl, rfl⟩
        · simp only [ShutdownManager.smStep, if_neg hg]
          exact ⟨rfl, rfl, rfl, rfl, rfl⟩
      | step =>
        cases pend with
        | nil =>
          by_cases hg : (prog && !compl) = true
          · simp only [ShutdownManager.smStep, if_pos hg]
            exact ⟨rfl, rfl, rfl, rfl, rfl⟩
          · simp only [ShutdownManager.smStep, if_neg hg]
            exact ⟨rfl, rfl, rfl, rfl, rfl⟩
        | cons c rest =>
          simp only [ShutdownManager.smStep]
          exact ⟨rfl, rfl, rfl, rfl, rfl⟩

/-- Runs with different raise patterns share the whole core state. -/
theorem foldl_samecore (r1 r2 : Nat → Bool) :
    ∀ (events : List SMEvent) (s t : ShutdownState), ShutdownManager.SameCore s t →
      ShutdownManager.SameCore (events.foldl (ShutdownManager.smStep r1) s)
        (events.foldl (ShutdownManager.smStep r2) t)
  | [], _, _, h => h
  | e :: es, s, t, h =>
    foldl_samecore r1 r2 es _ _ (smStep_samecore r1 r2 s t h e)

/-- Enough step transitions drain the pending list and complete the
shutdown, invoking exactly the pending callbacks in order. -/
theorem steps_drain (raises : Nat → Bool) :
    ∀ (l : List Nat) (s : ShutdownState), s.pending = l →
      s.shutdown_in_progress = true → s.shutdown_complete = false →
      ((List.replicate (l.length + 1) SMEvent.step).foldl
          (ShutdownManager.smStep raises) s).shutdown_complete = true ∧
      ((List.replicate (l.length + 1) SMEvent.step).foldl
          (ShutdownManager.smStep raises) s).invoked = s.invoked ++ l
  | [], s, hp, hin, hc => by
    simp [ShutdownManager.smStep, hp, hin, hc]
  | c :: rest, s, hp, hin, hc => by
    have hrep : List.replicate ((c :: rest).length + 1) SMEvent.step =
        SMEvent.step :: List.replicate (rest.length + 1) SMEvent.step := by
      simp [List.replicate_succ]
    rw [hrep, List.foldl_cons]
    obtain ⟨ih1, ih2⟩ := steps_drain raises rest (ShutdownManager.smStep raises s .step)
      (by simp [ShutdownManager.smStep, hp]) (by simp [ShutdownManager.smStep, hp, hin])
      (by simp [ShutdownManager.smStep, hp, hc])
    refine ⟨ih1, ?_⟩
    rw [ih2]
    simp [ShutdownManager.smStep, hp]

/-- C1: the Shutdown Manager runs registered cleanups exactly once, in reverse
registration order, on every entry path.  Over every sequence of entries
(exits, signals, re-entrant invocations) and every raise pattern: the invoked
log is always a prefix of the reversed registration list; once the shutdown
completes it is exactly the reversed registration list; the invoked log never
depends on which callbacks raised (their exceptions are caught); and a single
entry followed by enough scheduler steps does complete with every callback
invoked once in LIFO order. -/
theorem c1_shutdown_lifo (ids : List Nat) (raises raises2 : Nat → Bool)
    (events : List SMEvent) :
    ((ShutdownManager.run raises ids events).invoked <+: ids.reverse) ∧
    ((ShutdownManager.run raises ids events).shutdown_complete = true →
      (ShutdownManager.run raises ids events).invoked = ids.reverse) ∧
    ((ShutdownManager.run raises ids events).invoked =
      (ShutdownManager.run raises2 ids events).invoked) ∧
    ((ShutdownManager.run raises ids
        (SMEvent.invoke :: List.replicate (ids.length + 1) SMEvent.step)).shutdown_complete
        = true ∧
      (ShutdownManager.run raises ids
        (SMEvent.invoke :: List.replicate (ids.length + 1) SMEvent.step)).invoked
        = ids.reverse) := by
  have hinv : ShutdownManager.Inv ids (ShutdownManager.run raises ids events) :=
    foldl_inv raises ids events _ (init_inv ids)
  obtain ⟨-, h2, h3, h4⟩ := hinv
  refine ⟨?_, ?_, ?_, ?_⟩
  · cases hpr : (ShutdownManager.run raises ids events).shutdown_in_progress
    · rw [(h2 hpr).2.1]
      exact List.nil_prefix
    · exact ⟨_, h3 hpr⟩
  · intro hc
    obtain ⟨hpend, hpr⟩ := h4 hc
    have := h3 hpr
    rw [hpend] at this
    simpa using this
  · exact (foldl_samecore raises raises2 events _ _
      ⟨rfl, rfl, rfl, rfl, rfl⟩).2.2.2.2
  · have hstep1 : ShutdownManager.smStep raises (ShutdownManager.init ids) .invoke =
        ShutdownState.mk ids ids.reverse true false [] [] := by
      simp [ShutdownManager.smStep, ShutdownManager.init]
    have hlen : ids.length = ids.reverse.length := (List.length_reverse ids).symm
    obtain ⟨d1, d2⟩ := steps_drain raises ids.reverse
      (ShutdownManager.smStep raises (ShutdownManager.init ids) .invoke)
      (by rw [hstep1]) (by rw [hstep1]) (by rw [hstep1])
    show ((SMEvent.invoke :: List.replicate (ids.length + 1) SMEvent.step).foldl
        (ShutdownManager.smStep raises) (ShutdownManager.init ids)).shutdown_complete = true ∧
      ((SMEvent.invoke :: List.replicate (ids.length + 1) SMEvent.step).foldl
        (ShutdownManager.smStep raises) (ShutdownManager.init ids)).invoked = ids.reverse
    rw [List.foldl_cons, hlen]
    refine ⟨d1, ?_⟩
    rw [d2, hstep1]
    simp

/-- C1 witness: two callbacks, the later-registered one throwing; one entry
plus three steps invokes both, in LIFO order, and completes. -/
theorem c1_shutdown_lifo_witness :
    (ShutdownManager.run raisesOne [1, 2]
      (SMEvent.invoke :: List.replicate 3 SMEvent.step)).invoked = [2, 1] :=
  (c1_shutdown_lifo [1, 2] raisesOne raisesOne
    (SMEvent.invoke :: List.replicate 3 SMEvent.step)).2.1 (by decide)

/-- disable_motors_bus raises AttributeError on any non-empty actuator
list, because the Mux class defines no MOTOR_DISABLE attribute. -/
theorem disable_motors_bus_raises (canbus a : Nat) (l : List Nat) :
    CANInterface.disable_motors_bus canbus (a :: l) =
      .error (.attributeError "Mux" "MOTOR_DISABLE") := by
  simp [CANInterface.disable_motors_bus, Mux.attr]

/-- C2 (code bug): disable_motors never sends a disable frame and never
completes on real hardware: for every bus list containing at least one
discovered actuator, the first actuator iteration evaluates the undefined
attribute Mux.MOTOR_DISABLE and the call raises AttributeError. -/
theorem c2_disable_motors_raises (buses : List BusState) (b : BusState)
    (hb : b ∈ buses) (hne : b.actuators ≠ []) :
    CANInterface.disable_motors buses =
      .error (.attributeError "Mux" "MOTOR_DISABLE") := by
  induction buses with
  | nil => cases hb
  | cons bus rest ih =>
    cases hbact : bus.actuators with
    | nil =>
      have hbr : b ∈ rest := by
        rcases List.mem_cons.mp hb with h | h
        · subst h
          exact absurd hbact hne
        · exact h
      simp [CANInterface.disable_motors, hbact,
        CANInterface.disable_motors_bus, ih hbr]
    | cons a l =>
      simp [CANInterface.disable_motors, hbact, disable_motors_bus_raises]

/-- C2 witness: one bus holding actuator 11; disabling raises. -/
theorem c2_disable_motors_raises_witness :
    CANInterface.disable_motors [⟨0, [11], []⟩] =
      .error (.attributeError "Mux" "MOTOR_DISABLE") :=
  c2_disable_motors_raises [⟨0, [11], []⟩] ⟨0, [11], []⟩ (by decide) (by decide)

/-- After one get_joint_angles_and_velocities pass, the last-known entry of an
actuator in the id list is the fresh conversion of this pass when the exchange
succeeded for it, and is untouched otherwise. -/
theorem gjav_loop_lk {Raw Data : Type} (conv : Nat → Raw → Data) (dummy : Nat → Data) :
    ∀ (ids : List Nat) (fb : Nat → Option Raw) (lk : Nat → Option Data) (a : Nat),
      (MotorDriver.gjav_loop conv dummy ids fb lk).2 a =
        if a ∈ ids then
          match fb a with
          | some r => some (conv a r)
          | none => lk a
        else lk a
  | [], fb, lk, a => by simp [MotorDriver.gjav_loop]
  | id :: rest, fb, lk, a => by
    by_cases hid : a = id
    · subst hid
      cases hfb : fb a with
      | some r =>
        simp only [MotorDriver.gjav_loop, hfb]
        rw [gjav_loop_lk conv dummy rest fb _ a]
        by_cases hmem : a ∈ rest
        · simp [hmem, hfb]
        · simp [hmem, hfb]
      | none =>
        cases hlk : lk a with
        | some d =>
          simp only [MotorDriver.gjav_loop, hfb, hlk]
          rw [gjav_loop_lk conv dummy rest fb _ a]
          by_cases hmem : a ∈ rest
          · simp [hmem, hfb, hlk]
          · simp [hmem, hfb, hlk]
        | none =>
          simp only [MotorDriver.gjav_loop, hfb, hlk]
          rw [gjav_loop_lk conv dummy rest fb _ a]
          by_cases hmem : a ∈ rest
          · simp [hmem, hfb, hlk]
          · simp [hmem, hfb, hlk]
    · cases hfb : fb id with
      | some r =>
        simp only [MotorDriver.gjav_loop, hfb]
        rw [gjav_loop_lk conv dummy rest fb _ a]
        by_cases hmem : a ∈ rest
        · simp [hmem, List.mem_cons, hid]
        · simp [hmem, List.mem_cons, hid]
      | none =>
        cases hlk : lk id with
        | some d =>
          simp only [MotorDriver.gjav_loop, hfb, hlk]
          rw [gjav_loop_lk conv dummy rest fb _ a]
          by_cases hmem : a ∈ rest
          · simp [hmem, List.mem_cons, hid]
          · simp [hmem, List.mem_cons, hid]
        | none =>
          simp only [MotorDriver.gjav_loop, hfb, hlk]
          rw [gjav_loop_lk conv dummy rest fb _ a]
          by_cases hmem : a ∈ rest
          · simp [hmem, List.mem_cons, hid]
          · simp [hmem, List.mem_cons, hid]

/-- Folding the most-recent-success accumulator from an arbitrary seed. -/
theorem lastSuccess_acc {Raw : Type} (a : Nat) :
    ∀ (hist : List (Nat → Option Raw)) (acc : Option Raw),
      hist.foldl (fun acc2 fb => match fb a with | some r => some r | none => acc2) acc =
        match hist.foldl (fun acc2 fb => match fb a with | some r => some r | none => acc2)
            none with
        | some r => some r
        | none => acc
  | [], acc => by simp
  | fb :: rest, acc => by
    simp only [List.foldl_cons]
    cases hfb : fb a with
    | some r =>
      rw [lastSuccess_acc a rest (some r)]
      cases hrest : rest.foldl
          (fun acc2 fb => match fb a with | some r => some r | none => acc2) none <;> simp
    | none =>
      exact lastSuccess_acc a rest acc

/-- lastSuccess of one more (older) exchange at the front. -/
theorem lastSuccess_cons {Raw : Type} (a : Nat) (fb : Nat → Option Raw)
    (rest : List (Nat → Option Raw)) :
    lastSuccess (fb :: rest) a =
      match lastSuccess rest a with
      | some r => some r
      | none => match fb a with | some r => some r | none => none := by
  unfold lastSuccess
  rw [List.foldl_cons]
  cases hfb : fb a with
  | some r => exact lastSuccess_acc a rest (some r)
  | none =>
    have := lastSuccess_acc a rest none
    rw [this]
    cases rest.foldl (fun acc2 fb2 => match fb2 a with | some r => some r | none => acc2)
        none <;> simp

/-- Across a history of exchanges, the last-known entry of an actuator in the
id list is the conversion of its most recent successful read, or the seed
value when it never succeeded. -/
theorem run_ticks_lk {Raw Data : Type} (conv : Nat → Raw → Data) (dummy : Nat → Data)
    (ids : List Nat) :
    ∀ (hist : List (Nat → Option Raw)) (lk : Nat → Option Data) (a : Nat), a ∈ ids →
      MotorDriver.run_ticks conv dummy ids hist lk a =
        match lastSuccess hist a with
        | some r => some (conv a r)
        | none => lk a
  | [], lk, a, _ => by simp [MotorDriver.run_ticks, lastSuccess]
  | fb :: rest, lk, a, ha => by
    have hstep : MotorDriver.run_ticks conv dummy ids (fb :: rest) lk =
        MotorDriver.run_ticks conv dummy ids rest
          ((MotorDriver.gjav_loop conv dummy ids fb lk).2) := by
      simp [MotorDriver.run_ticks]
    rw [hstep, run_ticks_lk conv dummy ids rest _ a ha, lastSuccess_cons a fb rest]
    cases hls : lastSuccess rest a with
    | some r => rfl
    | none =>
      rw [gjav_loop_lk conv dummy ids fb lk a, if_pos ha]
      cases hfb : fb a <;> rfl

/-- The answer entry of get_joint_angles_and_velocities for an actuator in the
id list: fresh conversion, else last-known, else dummy. -/
theorem gjav_loop_lookup {Raw Data : Type} (conv : Nat → Raw → Data) (dummy : Nat → Data) :
    ∀ (ids : List Nat) (fb : Nat → Option Raw) (lk : Nat → Option Data) (a : Nat), a ∈ ids →
      (MotorDriver.gjav_loop conv dummy ids fb lk).1.lookup a =
        some (match fb a with
          | some r => conv a r
          | none => match lk a with | some d => d | none => dummy a)
  | [], _, _, a, ha => by cases ha
  | id :: rest, fb, lk, a, ha => by
    by_cases hid : a = id
    · subst hid
      cases hfb : fb a with
      | some r => simp [MotorDriver.gjav_loop, hfb, List.lookup]
      | none =>
        cases hlk : lk a with
        | some d => simp [MotorDriver.gjav_loop, hfb, hlk, List.lookup]
        | none => simp [MotorDriver.gjav_loop, hfb, hlk, List.lookup]
    · have hmem : a ∈ rest := by
        rcases List.mem_cons.mp ha with h | h
        · exact absurd h hid
        · exact h
      have hbeq : (a == id) = false := by
        simp [hid]
      cases hfb : fb id with
      | some r =>
        simp only [MotorDriver.gjav_loop, hfb, List.lookup, hbeq]
        rw [gjav_loop_lookup conv dummy rest fb _ a hmem]
        simp only [if_neg hid]
      | none =>
        cases hlk : lk id with
        | some d =>
          simp only [MotorDriver.gjav_loop, hfb, hlk, List.lookup, hbeq]
          exact gjav_loop_lookup conv dummy rest fb _ a hmem
        | none =>
          simp only [MotorDriver.gjav_loop, hfb, hlk, List.lookup, hbeq]
          exact gjav_loop_lookup conv dummy rest fb _ a hmem

/-- C6: last-known-good substitution.  For every conversion, id list, history
of exchanges and current exchange: once an actuator in the list has had at
least one successful read, the joint-data answer of the next call contains an
entry for it that is either the freshly converted feedback of this call or the
conversion of the most recent successful read — never the fabricated dummy
zeros. -/
theorem c6_last_known_good {Raw Data : Type} (conv : Nat → Raw → Data) (dummy : Nat → Data)
    (ids : List Nat) (hist : List (Nat → Option Raw)) (fbNow : Nat → Option Raw)
    (a : Nat) (r : Raw) (ha : a ∈ ids) (hs : lastSuccess hist a = some r) :
    (MotorDriver.gjav_loop conv dummy ids fbNow
        (MotorDriver.run_ticks conv dummy ids hist (MotorDriver.lk_init ids dummy))).1.lookup a =
      some (match fbNow a with
        | some r2 => conv a r2
        | none => conv a r) := by
  rw [gjav_loop_lookup conv dummy ids fbNow _ a ha,
    run_ticks_lk conv dummy ids hist _ a ha, hs]

/-- C6 witness: two actuators, one earlier successful read for actuator 11,
then a tick in which every read times out: the answer carries the converted
last-known value for actuator 11. -/
theorem c6_last_known_good_witness :
    (MotorDriver.gjav_loop (fun a r => a * 1000 + r) (fun _ => 0) [11, 12]
        (fun _ => none)
        (MotorDriver.run_ticks (fun a r => a * 1000 + r) (fun _ => 0) [11, 12]
          [fun x => if x = 11 then some 7 else none]
          (MotorDriver.lk_init [11, 12] (fun _ => 0)))).1.lookup 11 = some 11007 :=
  c6_last_known_good (fun a r => a * 1000 + r) (fun _ => 0) [11, 12]
    [fun x => if x = 11 then some 7 else none] (fun _ => none) 11 7
    (by decide) rfl

/-- Updating the results dictionary under the responder id keeps every entry
keyed by its own actuator id. -/
theorem update_keying (results : FeedbackMap)
    (hres : ∀ k v, results k = some v → v.actuator_can_id = k) (pf : ParsedFrame) :
    ∀ k v,
      results.update (CANInterface.parse_feedback_response pf).actuator_can_id
          (CANInterface.parse_feedback_response pf) k = some v →
      v.actuator_can_id = k := by
  intro k v h
  unfold FeedbackMap.update at h
  by_cases hk : k = (CANInterface.parse_feedback_response pf).actuator_can_id
  · rw [if_pos hk] at h
    cases h
    exact hk.symm
  · rw [if_neg hk] at h
    exact hres k v h

/-- The receive half of one tranche keeps every stored entry keyed by the
actuator id carried in its own response frame. -/
theorem gaf_receive_keying (tranche : Nat) :
    ∀ (buses : List BusState) (results : FeedbackMap) (out : List BusState × FeedbackMap),
      CANInterface.gaf_receive tranche buses results = .ok out →
      (∀ k v, results k = some v → v.actuator_can_id = k) →
      ∀ k v, out.2 k = some v → v.actuator_can_id = k
  | [], results, out, hok, hres => by
    simp only [CANInterface.gaf_receive] at hok
    injection hok with h
    subst h
    exact hres
  | bus :: rest, results, out, hok, hres => by
    simp only [CANInterface.gaf_receive] at hok
    by_cases htr : tranche < bus.actuators.length
    · rw [if_pos htr] at hok
      cases hrecv : CANInterface.receive_can_frame bus.stream Mux.FEEDBACK with
      | error e =>
        rw [hrecv] at hok
        cases hok
      | ok pr =>
        obtain ⟨opf, s2⟩ := pr
        rw [hrecv] at hok
        cases opf with
        | none =>
          cases hrec2 : CANInterface.gaf_receive tranche rest results with
          | error e =>
            rw [hrec2] at hok
            cases hok
          | ok t =>
            rw [hrec2] at hok
            injection hok with h
            subst h
            exact gaf_receive_keying tranche rest results t hrec2 hres
        | some pf =>
          dsimp only at hok
          cases hrec2 : CANInterface.gaf_receive tranche rest
              (results.update (CANInterface.parse_feedback_response pf).actuator_can_id
                (CANInterface.parse_feedback_response pf)) with
          | error e =>
            rw [hrec2] at hok
            cases hok
          | ok t =>
            rw [hrec2] at hok
            injection hok with h
            subst h
            exact gaf_receive_keying tranche rest _ t hrec2 (update_keying results hres pf)
    · rw [if_neg htr] at hok
      cases hrec2 : CANInterface.gaf_receive tranche rest results with
      | error e =>
        rw [hrec2] at hok
        cases hok
      | ok t =>
        rw [hrec2] at hok
        injection hok with h
        subst h
        exact gaf_receive_keying tranche rest results t hrec2 hres

/-- The tranche loop keeps every stored entry keyed by its own response id. -/
theorem gaf_tranches_keying :
    ∀ (ts : List Nat) (buses : List BusState) (results : FeedbackMap) (res : FeedbackMap),
      CANInterface.gaf_tranches ts buses results = .ok res →
      (∀ k v, results k = some v → v.actuator_can_id = k) →
      ∀ k v, res k = some v → v.actuator_can_id = k
  | [], _, results, res, hok, hres => by
    simp only [CANInterface.gaf_tranches] at hok
    injection hok with h
    subst h
    exact hres
  | t :: ts, buses, results, res, hok, hres => by
    simp only [CANInterface.gaf_tranches] at hok
    cases hrecv : CANInterface.gaf_receive t buses results with
    | error e =>
      rw [hrecv] at hok
      cases hok
    | ok r =>
      rw [hrecv] at hok
      exact gaf_tranches_keying ts r.1 r.2 res hok
        (gaf_receive_keying t buses results r hrecv hres)

/-- C10: every entry of the feedback map returned by get_actuator_feedback is
keyed by the actuator id carried in the received frame itself, not by the
polled id; consequently, on a one-bus interface with actuators 11 and 12 where
polling 11 yields a response frame carrying id 12 and the next poll times out,
the map stores the record under 12 and leaves 11 without an entry. -/
theorem c10_feedback_keyed_by_responder :
    (∀ (buses : List BusState) (res : FeedbackMap) (k : Nat) (v : FeedbackResult),
      CANInterface.get_actuator_feedback buses = .ok res →
      res k = some v → v.actuator_can_id = k) ∧
    ((CANInterface.get_actuator_feedback [⟨0, [11, 12], [some f12bytes]⟩]).toOption.map
        (fun res => (res 11, (res 12).map FeedbackResult.actuator_can_id)) =
      some (none, some 12)) := by
  constructor
  · intro buses res k v hok hres
    cases buses with
    | nil =>
      simp only [CANInterface.get_actuator_feedback] at hok
      cases hok
    | cons b bs =>
      simp only [CANInterface.get_actuator_feedback] at hok
      exact gaf_tranches_keying _ _ _ res hok (by intro k2 v2 h; cases h) k v hres
  · decide

/-- C10 witness: the general keying property applied to the concrete one-bus
scenario where the response to polling actuator 11 carries id 12. -/
theorem c10_feedback_keyed_by_responder_witness :
    (CANInterface.parse_feedback_response pf12).actuator_can_id = 12 :=
  c10_feedback_keyed_by_responder.1 [⟨0, [11, 12], [some f12bytes]⟩]
    (FeedbackMap.update (fun _ => none) 12 (CANInterface.parse_feedback_response pf12))
    12 (CANInterface.parse_feedback_response pf12) rfl rfl

/-- Python int() of a real in [n, n+1) with n nonnegative. -/
theorem pyInt_eq_of (x : ℝ) (n : ℤ) (h0 : 0 ≤ x) (h1 : (n:ℝ) ≤ x) (h2 : x < n + 1) :
    pyInt x = n := by
  unfold pyInt
  rw [if_pos h0]
  rw [Int.floor_eq_iff]
  exact ⟨h1, h2⟩

/-- C7 (corrected, counterexample): at maximum scaling 1/2 the first ramp step
of enable_and_home_motors is 0.001 multiplied by the scaling (= 1/2000), while
the claimed value — the exp term capped at the maximum scaling — would be
min 0.001 (1/2) = 1/1000. -/
theorem c7_ramp_not_capped :
    MotorDriver.rampScale (1/2) 0 = 1/2000 ∧
    min (Real.exp (Real.log 0.001 +
      (Real.log 1 - Real.log 0.001) * ((0:Nat):ℝ) / 29)) (1/2) = 1/1000 ∧
    (1/2000 : ℝ) ≠ 1/1000 := by
  have hexp : Real.exp (Real.log 0.001 +
      (Real.log 1 - Real.log 0.001) * ((0:Nat):ℝ) / 29) = 0.001 := by
    simp only [Nat.cast_zero, mul_zero, zero_div, add_zero]
    exact Real.exp_log (by norm_num)
  refine ⟨?_, ?_, by norm_num⟩
  · unfold MotorDriver.rampScale
    rw [hexp]
    norm_num
  · rw [hexp]
    norm_num

/-- C7 (amended): the homing gain ramp visits exactly 30 scale values, the
i-th being exp(log 0.001 + (log 1 − log 0.001)·i/29) multiplied by the
configured maximum scaling; for positive maximum scaling the sequence is
strictly increasing, the first value is 0.001 times the maximum scaling and
the last equals the maximum scaling (≈ 0.001 and ≈ 1.0 when the maximum
scaling is 1). -/
theorem c7_gain_ramp (ms : ℝ) (hms : 0 < ms) :
    (MotorDriver.rampScales ms).length = 30 ∧
    (∀ i, i < 30 → (MotorDriver.rampScales ms)[i]? = some (MotorDriver.rampScale ms i)) ∧
    (∀ i j, i < j → j < 30 → MotorDriver.rampScale ms i < MotorDriver.rampScale ms j) ∧
    MotorDriver.rampScale ms 0 = 0.001 * ms ∧
    MotorDriver.rampScale ms 29 = ms := by
  refine ⟨by simp [MotorDriver.rampScales], ?_, ?_, ?_, ?_⟩
  · intro i hi
    simp [MotorDriver.rampScales, List.getElem?_map, List.getElem?_range, hi]
  · intro i j hij _
    unfold MotorDriver.rampScale
    apply mul_lt_mul_of_pos_right _ hms
    apply Real.exp_lt_exp.mpr
    have hlog : Real.log 0.001 < 0 := Real.log_neg (by norm_num) (by norm_num)
    rw [Real.log_one]
    have hij2 : (i:ℝ) < j := by exact_mod_cast hij
    have h29 : (0:ℝ) < 29 := by norm_num
    have hmul : (0 - Real.log 0.001) * i < (0 - Real.log 0.001) * j :=
      mul_lt_mul_of_pos_left hij2 (by linarith)
    have := (div_lt_div_right h29).mpr hmul
    linarith
  · unfold MotorDriver.rampScale
    simp only [Nat.cast_zero, mul_zero, zero_div, add_zero]
    rw [Real.exp_log (by norm_num)]
  · unfold MotorDriver.rampScale
    rw [Real.log_one]
    push_cast
    rw [mul_div_assoc, div_self (by norm_num : (29:ℝ) ≠ 0), mul_one]
    rw [show Real.log 0.001 + (0 - Real.log 0.001) = 0 by ring]
    rw [Real.exp_zero, one_mul]

/-- C7 witness: the amended ramp theorem at maximum scaling 1. -/
theorem c7_gain_ramp_witness : (MotorDriver.rampScales 1).length = 30 :=
  (c7_gain_ramp 1 (by norm_num)).1

/-- Bounds of the linear physical-to-wire map used by every
physical_to_can conversion. -/
theorem lin_map_bounds (lo hi v : ℝ) (h : lo < hi) :
    (lo ≤ v → v ≤ hi → 0 ≤ 0 + (v - lo) / (hi - lo) * (65535 - 0) ∧
        0 + (v - lo) / (hi - lo) * (65535 - 0) ≤ 65535) ∧
    (hi < v → 65535 < 0 + (v - lo) / (hi - lo) * (65535 - 0)) ∧
    (v < lo → 0 + (v - lo) / (hi - lo) * (65535 - 0) < 0) := by
  have hd : (0:ℝ) < hi - lo := by linarith
  refine ⟨?_, ?_, ?_⟩
  · intro h1 h2
    have hq0 : 0 ≤ (v - lo) / (hi - lo) := div_nonneg (by linarith) hd.le
    have hq1 : (v - lo) / (hi - lo) ≤ 1 := by
      rw [div_le_one hd]
      linarith
    constructor
    · nlinarith
    · nlinarith
  · intro h1
    have hq : 1 < (v - lo) / (hi - lo) := by
      rw [lt_div_iff hd]
      linarith
    nlinarith
  · intro h1
    have hq : (v - lo) / (hi - lo) < 0 := div_neg_of_neg_of_pos (by linarith) hd
    nlinarith

/-- C8 (corrected, counterexample): the conversions do not saturate.  For the
kp field of actuator 11 (family Robstride03, endpoints 0 and 5000), the input
10000 converts to the wire value 131070, and its int() truncation 131070 lies
above 65535. -/
theorem c8_saturation_fails :
    (RobotConfig.actuators 11).map (fun c => c.physical_to_can_kp 10000) =
      some 131070 ∧
    (65535:ℝ) < 131070 ∧
    pyInt 131070 = 131070 ∧ (65535:ℤ) < 131070 := by
  have hact : RobotConfig.actuators 11 = some cfg11 := rfl
  refine ⟨?_, by norm_num, ?_, by norm_num⟩
  · rw [hact]
    show some (cfg11.physical_to_can_kp 10000) = some 131070
    have : cfg11.physical_to_can_kp 10000 = 131070 := by
      simp only [cfg11, mkActuatorConfig, actuator_ranges, ActuatorConfig.physical_to_can_kp]
      norm_num
    rw [this]
  · exact pyInt_eq_of 131070 131070 (by norm_num) (by norm_num) (by norm_num)

/-- C8 (amended): physical_to_wire is the plain linear normalisation by the
family endpoints with no clamping: inputs within the endpoints map into
[0, 65535], but inputs above the upper endpoint map strictly above 65535 and
inputs below the lower endpoint map strictly below 0 — out-of-range inputs do
not saturate.  Stated for all five converted fields of any descriptor whose
endpoints are ordered. -/
theorem c8_physical_to_wire_linear (c : ActuatorConfig) (v : ℝ) :
    (c.angle_can_min < c.angle_can_max →
      ((c.angle_can_min ≤ v → v ≤ c.angle_can_max →
          0 ≤ c.physical_to_can_angle v ∧ c.physical_to_can_angle v ≤ 65535) ∧
       (c.angle_can_max < v → 65535 < c.physical_to_can_angle v) ∧
       (v < c.angle_can_min → c.physical_to_can_angle v < 0))) ∧
    (c.velocity_can_min < c.velocity_can_max →
      ((c.velocity_can_min ≤ v → v ≤ c.velocity_can_max →
          0 ≤ c.physical_to_can_velocity v ∧ c.physical_to_can_velocity v ≤ 65535) ∧
       (c.velocity_can_max < v → 65535 < c.physical_to_can_velocity v) ∧
       (v < c.velocity_can_min → c.physical_to_can_velocity v < 0))) ∧
    (c.torque_can_min < c.torque_can_max →
      ((c.torque_can_min ≤ v → v ≤ c.torque_can_max →
          0 ≤ c.physical_to_can_torque v ∧ c.physical_to_can_torque v ≤ 65535) ∧
       (c.torque_can_max < v → 65535 < c.physical_to_can_torque v) ∧
       (v < c.torque_can_min → c.physical_to_can_torque v < 0))) ∧
    (c.kp_can_min < c.kp_can_max →
      ((c.kp_can_min ≤ v → v ≤ c.kp_can_max →
          0 ≤ c.physical_to_can_kp v ∧ c.physical_to_can_kp v ≤ 65535) ∧
       (c.kp_can_max < v → 65535 < c.physical_to_can_kp v) ∧
       (v < c.kp_can_min → c.physical_to_can_kp v < 0))) ∧
    (c.kd_can_min < c.kd_can_max →
      ((c.kd_can_min ≤ v → v ≤ c.kd_can_max →
          0 ≤ c.physical_to_can_kd v ∧ c.physical_to_can_kd v ≤ 65535) ∧
       (c.kd_can_max < v → 65535 < c.physical_to_can_kd v) ∧
       (v < c.kd_can_min → c.physical_to_can_kd v < 0))) :=
  ⟨fun h => lin_map_bounds c.angle_can_min c.angle_can_max v h,
   fun h => lin_map_bounds c.velocity_can_min c.velocity_can_max v h,
   fun h => lin_map_bounds c.torque_can_min c.torque_can_max v h,
   fun h => lin_map_bounds c.kp_can_min c.kp_can_max v h,
   fun h => lin_map_bounds c.kd_can_min c.kd_can_max v h⟩

/-- C8 witness: for the kp field of actuator 11 (endpoints 0 < 5000), the in-range
input 100 lands in [0, 65535] and the out-of-range input 10000 exceeds
65535. -/
theorem c8_physical_to_wire_linear_witness :
    (0 ≤ cfg11.physical_to_can_kp 100 ∧ cfg11.physical_to_can_kp 100 ≤ 65535) ∧
    65535 < cfg11.physical_to_can_kp 10000 := by
  have hlo : cfg11.kp_can_min = 0 := rfl
  have hhi : cfg11.kp_can_max = 5000 := rfl
  have hord : cfg11.kp_can_min < cfg11.kp_can_max := by
    rw [hlo, hhi]
    norm_num
  refine ⟨((c8_physical_to_wire_linear cfg11 100).2.2.2.1 hord).1
      (by rw [hlo]; norm_num) (by rw [hhi]; norm_num),
    ((c8_physical_to_wire_linear cfg11 10000).2.2.2.1 hord).2.1 (by rw [hhi]; norm_num)⟩

/-- The five raw conversions of the PD command for actuator 11, angle 0,
scaling 1/2. -/
theorem pd11_raw_values :
    pyInt (cfg11.physical_to_can_torque 0) = 32767 ∧
    pyInt (cfg11.physical_to_can_angle 0) = 32767 ∧
    pyInt (cfg11.physical_to_can_velocity 0) = 32767 ∧
    pyInt (cfg11.raw_kp * (1/2)) = 655 ∧
    pyInt (cfg11.raw_kd * (1/2)) = 2714 := by
  have htq : cfg11.physical_to_can_torque 0 = 65535 / 2 := by
    simp only [cfg11, mkActuatorConfig, actuator_ranges, ActuatorConfig.physical_to_can_torque]
    norm_num
  have hang : cfg11.physical_to_can_angle 0 = 65535 / 2 := by
    simp only [cfg11, mkActuatorConfig, actuator_ranges, ActuatorConfig.physical_to_can_angle]
    have hpi := Real.pi_ne_zero
    field_simp
    ring
  have hvel : cfg11.physical_to_can_velocity 0 = 65535 / 2 := by
    simp only [cfg11, mkActuatorConfig, actuator_ranges, ActuatorConfig.physical_to_can_velocity]
    norm_num
  have hkp : cfg11.raw_kp * (1/2) = 13107 / 20 := by
    simp only [cfg11, mkActuatorConfig, actuator_ranges, ActuatorConfig.raw_kp,
      ActuatorConfig.physical_to_can_kp]
    norm_num
  have hkd : cfg11.raw_kd * (1/2) = 54289194 / 20000 := by
    simp only [cfg11, mkActuatorConfig, actuator_ranges, ActuatorConfig.raw_kd,
      ActuatorConfig.physical_to_can_kd]
    norm_num
  refine ⟨?_, ?_, ?_, ?_, ?_⟩
  · rw [htq]
    exact pyInt_eq_of _ 32767 (by norm_num) (by norm_num) (by norm_num)
  · rw [hang]
    exact pyInt_eq_of _ 32767 (by norm_num) (by norm_num) (by norm_num)
  · rw [hvel]
    exact pyInt_eq_of _ 32767 (by norm_num) (by norm_num) (by norm_num)
  · rw [hkp]
    exact pyInt_eq_of _ 655 (by norm_num) (by norm_num) (by norm_num)
  · rw [hkd]
    exact pyInt_eq_of _ 2714 (by norm_num) (by norm_num) (by norm_num)

/-- The PD command frame for actuator 11, target angle 0, scaling 1/2, byte
for byte. -/
theorem pd_frame11_eq :
    CANInterface.build_pd_command_frame cfg11 11 0 (1/2) = some pd_frame11_bytes := by
  obtain ⟨htq, hang, hvel, hkp, hkd⟩ := pd11_raw_values
  simp only [CANInterface.build_pd_command_frame, htq, hang, hvel, hkp, hkd]
  rw [if_pos (by norm_num)]
  norm_num
  decide

/-- C9 (corrected, amended): packing the PD command for actuator 11 (family
Robstride03, kp = 100, kd = 8.284), target angle 0 rad, scaling 1/2, yields
the 16-byte frame whose identifier low byte is 11 and whose mux bits decode to
0x01 (CONTROL), with big-endian payload u16 raw angle 32767 (mid range), u16
raw velocity 32767, u16 raw kp 655 (= int(100/5000×65535×0.5)) and u16 raw kd
2714. -/
theorem c9_pd_command_pack :
    (RobotConfig.actuators 11).map
        (fun c => CANInterface.build_pd_command_frame c 11 0 (1/2)) =
      some (some pd_frame11_bytes) ∧
    pd_frame11_bytes.length = 16 ∧
    pd_frame11_bytes[0]! = 11 ∧
    pd_frame11_bytes[3]! &&& 0x1F = Mux.CONTROL ∧
    readU16be pd_frame11_bytes[8]! pd_frame11_bytes[9]! = 32767 ∧
    readU16be pd_frame11_bytes[10]! pd_frame11_bytes[11]! = 32767 ∧
    readU16be pd_frame11_bytes[12]! pd_frame11_bytes[13]! = 655 ∧
    readU16be pd_frame11_bytes[14]! pd_frame11_bytes[15]! = 2714 := by
  have hact : RobotConfig.actuators 11 = some cfg11 := rfl
  refine ⟨?_, by decide, by decide, by decide, by decide, by decide, by decide, by decide⟩
  rw [hact]
  show some (CANInterface.build_pd_command_frame cfg11 11 0 (1/2)) = some (some pd_frame11_bytes)
  rw [pd_frame11_eq]

/-- C9 (counterexample): the u16 kp field of that frame is 655, not ≈ 500 as
the claim states (it is more than 100 above 500). -/
theorem c9_kp_not_500 :
    (RobotConfig.actuators 11).map
        (fun c => (CANInterface.build_pd_command_frame c 11 0 (1/2)).map
          (fun f => readU16be f[12]! f[13]!)) = some (some 655) ∧
    (655:Nat) ≠ 500 ∧
    500 + 100 < 655 := by
  have hact : RobotConfig.actuators 11 = some cfg11 := rfl
  refine ⟨?_, by decide, by decide⟩
  rw [hact]
  show some ((CANInterface.build_pd_command_frame cfg11 11 0 (1/2)).map
      (fun f => readU16be f[12]! f[13]!)) = some (some 655)
  rw [pd_frame11_eq]
  decide

end PyFirmware
